import Mathlib

/-!
Shallow embedding of the zk-Census Solana program
(programs/census/src): state accounts, errors, events and the six
instruction handlers, together with proofs of the specified
properties.  Machine integers are modelled as Nat (u64) and Int (i64);
byte arrays as lists of byte values.  An instruction is a function
from the committed ledger state to either an error or the new
committed state plus the events it emits; an error commits nothing
(the transaction model of the host chain reverts every write of a
failing instruction, including account creation).
-/

namespace ZkCensus

/-- Error codes of the program, from error.rs. -/
inductive CensusError where
  | invalidProof
  | nullifierAlreadyUsed
  | invalidMerkleRoot
  | unauthorizedAdmin
  | censusScopeExpired
  | invalidCommitment
  | treeFull
  | invalidProofFormat
  | censusNotActive
  | arithmeticOverflow
  | invalidSignalHash
  | attestationExpired
  | invalidVerifierSignature
  deriving DecidableEq, Repr

/-- Transaction-level outcome: either a program error from error.rs, or one of
the two account-validation failures the Anchor layer raises before the handler
body runs: a missing required signature on a Signer account, and a failing
account creation because the address is already in use (the init constraint on
the nullifier PDA, which is what rejects a duplicate nullifier). -/
inductive TxError where
  | missingSignature
  | accountInUse
  | census (e : CensusError)
  deriving DecidableEq, Repr

/-- Byte strings are lists of byte values (each intended in 0..255). -/
abbrev Bytes := List Nat

/-- Account addresses (Pubkey) are opaque; modelled as Nat. -/
abbrev Pubkey := Nat

/-- Modulus of the u64 counters. -/
def U64MOD : Nat := 2 ^ 64

/-- Rust u64::checked_add on values below 2^64: some sum when it fits, none on
overflow. -/
def checkedAddU64 (a b : Nat) : Option Nat :=
  if a + b < U64MOD then some (a + b) else none

/-- The CensusState account, from state.rs. -/
structure CensusState where
  admin : Pubkey
  merkle_root : Bytes
  merkle_tree : Pubkey
  current_scope : Nat
  scope_start_time : Int
  scope_duration : Int
  total_registered : Nat
  current_population : Nat
  leaf_count : Nat
  is_active : Bool
  bump : Nat
  deriving DecidableEq, Repr

/-- A Nullifier account, from state.rs; one exists per claimed nullifier
hash, at the PDA derived from that hash. -/
structure NullifierRecord where
  nullifier_hash : Bytes
  scope : Nat
  timestamp : Int
  bump : Nat
  deriving DecidableEq, Repr

/-- The full on-chain state the program touches: the CensusState singleton
plus the set of existing Nullifier accounts (as a list of records). -/
structure Ledger where
  census : CensusState
  nullifiers : List NullifierRecord
  deriving DecidableEq, Repr

/-- Events from state.rs, emitted for off-chain indexing. -/
inductive Event where
  | citizenRegistered (commitment : Bytes) (leaf_index : Nat) (timestamp : Int)
  | censusCounted (nullifier_hash : Bytes) (scope : Nat) (new_population : Nat)
      (timestamp : Int)
  | scopeAdvanced (old_scope : Nat) (new_scope : Nat) (final_population : Nat)
      (timestamp : Int)
  deriving DecidableEq, Repr

/-- Does a Nullifier account for this hash already exist?  This is the PDA
existence test behind the init constraint on the nullifier account (seeds are
the fixed nullifier seed plus the 32-byte hash, so existence is keyed on the
hash alone). -/
def hasNullifier (l : Ledger) (h : Bytes) : Bool :=
  l.nullifiers.any (fun r => decide (r.nullifier_hash = h))

/-- Rust u64::to_le_bytes: the 8 bytes of v, little-endian
(byte k is v shifted right by 8*k, masked to 8 bits). -/
def u64ToLeBytes (v : Nat) : Bytes :=
  [v % 256, v / 2 ^ 8 % 256, v / 2 ^ 16 % 256, v / 2 ^ 24 % 256,
   v / 2 ^ 32 % 256, v / 2 ^ 40 % 256, v / 2 ^ 48 % 256, v / 2 ^ 56 % 256]

/-- Rust i64::to_le_bytes: the two-complement bit pattern, little-endian. -/
def i64ToLeBytes (v : Int) : Bytes :=
  u64ToLeBytes (v % (2 ^ 64 : Int)).toNat

/-- The expected external nullifier computed in both submit handlers: the
scope counter little-endian bytes copied into the first 8 bytes of a zeroed
32-byte array. -/
def expectedExternal (scope : Nat) : Bytes :=
  u64ToLeBytes scope ++ List.replicate 24 0

/-- Little-endian base-256 digits, lowest first.  Helper for the spec-side
formulation of the derivation rule. -/
def leBytesAux : Nat → Nat → Bytes
  | 0, _ => []
  | n + 1, v => v % 256 :: leBytesAux n (v / 256)

/-- The derivation rule exactly as the spec words it: the 8-byte little-endian
encoding of the scope, zero-extended to 32 bytes.  Stated independently of the
handler computation so the two can be compared. -/
def specExternalNullifier (scope : Nat) : Bytes :=
  leBytesAux 8 scope ++ List.replicate 24 0

/-- The four 32-byte public inputs of submit_census, in their array order:
index 0 the root, index 1 the nullifier hash, index 2 the signal hash,
index 3 the external nullifier. -/
structure PublicInputs where
  i0 : Bytes
  i1 : Bytes
  i2 : Bytes
  i3 : Bytes
  deriving DecidableEq, Repr

/-- Modelled from the spec: the Groth16 verification engine
(programs/census/src/groth16.rs is declared in lib.rs but its source is not
available here).  Per the spec it is pure and stateless, checking only
curve-pairing validity of the supplied proof against the fixed verification
key and public inputs, returning accept or reject, or an error for malformed
input.  It is therefore modelled as an arbitrary pure function of the proof
bytes and public inputs. -/
def VerifyFn : Type :=
  Bytes → Bytes → Bytes → PublicInputs → Except CensusError Bool

/-- The message the attestation handler reconstructs: the fixed-order
concatenation timestamp (8 bytes LE), root, nullifier hash, external
nullifier, signal hash. -/
def attestationMessage (timestamp : Int)
    (merkle_root nullifier_hash external_nullifier signal_hash : Bytes) :
    Bytes :=
  i64ToLeBytes timestamp ++ merkle_root ++ nullifier_hash ++
    external_nullifier ++ signal_hash

/-- Handler of the one-time ledger-creating instruction
(instructions/initialize.rs): the CensusState it writes. -/
def init_handler (admin : Pubkey) (scope_duration : Int) (now : Int)
    (bump : Nat) : CensusState :=
  { admin := admin
    merkle_root := List.replicate 32 0
    merkle_tree := 0
    current_scope := 1
    scope_start_time := now
    scope_duration := scope_duration
    total_registered := 0
    current_population := 0
    leaf_count := 0
    is_active := true
    bump := bump }

/-- register_citizen (instructions/register_citizen.rs) together with its
account constraints (contexts.rs): caller must be the admin, census must be
active; then both counters are checked-incremented and the enrollment event is
emitted with the pre-increment leaf count as index. -/
def register_citizen_ix (caller : Pubkey) (l : Ledger)
    (identity_commitment : Bytes) (now : Int) :
    Except TxError (Ledger × List Event) :=
  if l.census.admin ≠ caller then .error (.census .unauthorizedAdmin)
  else if l.census.is_active = false then .error (.census .censusNotActive)
  else
    let current_leaf_index := l.census.leaf_count
    match checkedAddU64 l.census.leaf_count 1 with
    | none => .error (.census .arithmeticOverflow)
    | some lc =>
      match checkedAddU64 l.census.total_registered 1 with
      | none => .error (.census .arithmeticOverflow)
      | some tr =>
        .ok ({ l with census :=
                 { l.census with leaf_count := lc, total_registered := tr } },
             [.citizenRegistered identity_commitment current_leaf_index now])

/-- advance_scope (instructions/advance_scope.rs) with its admin constraint:
checked-increments the scope, resets the start time to now and the population
to zero, and emits the epoch-closed event. -/
def advance_scope_ix (caller : Pubkey) (l : Ledger) (now : Int) :
    Except TxError (Ledger × List Event) :=
  if l.census.admin ≠ caller then .error (.census .unauthorizedAdmin)
  else
    let old_scope := l.census.current_scope
    let final_population := l.census.current_population
    match checkedAddU64 l.census.current_scope 1 with
    | none => .error (.census .arithmeticOverflow)
    | some ns =>
      .ok ({ l with census :=
               { l.census with current_scope := ns, scope_start_time := now,
                               current_population := 0 } },
           [.scopeAdvanced old_scope ns final_population now])

/-- set_merkle_root (instructions/set_merkle_root.rs) with its admin
constraint: overwrites the stored root unconditionally. -/
def set_merkle_root_ix (caller : Pubkey) (l : Ledger) (root : Bytes) :
    Except TxError (Ledger × List Event) :=
  if l.census.admin ≠ caller then .error (.census .unauthorizedAdmin)
  else .ok ({ l with census := { l.census with merkle_root := root } }, [])

/-- submit_census (instructions/submit_census.rs) with its account
validation (contexts.rs).  Validation order follows the account struct:
the census state active constraint, then init of the nullifier PDA derived
from public input 1 (fails if that account exists).  The handler then checks
the root, the external nullifier against the current scope, runs the Groth16
engine, and on acceptance records the nullifier and checked-increments the
population.  In the source the record fields are written before the
checked_add; a failing checked_add reverts the whole transaction, so the
committed effect is as modelled: all or nothing. -/
def submit_census_ix (verify : VerifyFn) (l : Ledger)
    (proof_a proof_b proof_c : Bytes) (public_inputs : PublicInputs)
    (now : Int) (bump : Nat) : Except TxError (Ledger × List Event) :=
  if l.census.is_active = false then .error (.census .censusNotActive)
  else if hasNullifier l public_inputs.i1 then .error .accountInUse
  else if public_inputs.i0 ≠ l.census.merkle_root then
    .error (.census .invalidMerkleRoot)
  else if public_inputs.i3 ≠ expectedExternal l.census.current_scope then
    .error (.census .censusScopeExpired)
  else
    match verify proof_a proof_b proof_c public_inputs with
    | .error e => .error (.census e)
    | .ok false => .error (.census .invalidProof)
    | .ok true =>
      match checkedAddU64 l.census.current_population 1 with
      | none => .error (.census .arithmeticOverflow)
      | some np =>
        .ok ({ census := { l.census with current_population := np },
               nullifiers :=
                 { nullifier_hash := public_inputs.i1,
                   scope := l.census.current_scope,
                   timestamp := now, bump := bump } :: l.nullifiers },
             [.censusCounted public_inputs.i1 l.census.current_scope np now])

/-- submit_attestation (instructions/submit_attestation.rs) with its account
validation (contexts.rs).  Validation order follows the account struct: the
verifier account is a Signer (its signature must be present on the
transaction), the census state active constraint, then init of the nullifier
PDA derived from the nullifier hash argument.  The handler then checks
freshness, root, and external nullifier, reconstructs the signed message, and
re-checks that the verifier signed the transaction; the 64-byte signature
argument itself is never inspected.  On acceptance it records the nullifier
and checked-increments the population. -/
def submit_attestation_ix (l : Ledger) (payer verifier : Pubkey)
    (verifier_is_signer : Bool) (timestamp : Int)
    (merkle_root nullifier_hash external_nullifier signal_hash : Bytes)
    (signature : Bytes) (now : Int) (bump : Nat) :
    Except TxError (Ledger × List Event) :=
  if verifier_is_signer = false then .error .missingSignature
  else if l.census.is_active = false then .error (.census .censusNotActive)
  else if hasNullifier l nullifier_hash then .error .accountInUse
  else
    let time_diff := now - timestamp
    if ¬(time_diff ≥ 0 ∧ time_diff < 300) then
      .error (.census .attestationExpired)
    else if merkle_root ≠ l.census.merkle_root then
      .error (.census .invalidMerkleRoot)
    else if external_nullifier ≠ expectedExternal l.census.current_scope then
      .error (.census .censusScopeExpired)
    else
      let _message := attestationMessage timestamp merkle_root nullifier_hash
        external_nullifier signal_hash
      if verifier_is_signer = false then
        .error (.census .invalidVerifierSignature)
      else
        match checkedAddU64 l.census.current_population 1 with
        | none => .error (.census .arithmeticOverflow)
        | some np =>
          .ok ({ census := { l.census with current_population := np },
                 nullifiers :=
                   { nullifier_hash := nullifier_hash,
                     scope := l.census.current_scope,
                     timestamp := now, bump := bump } :: l.nullifiers },
               [.censusCounted nullifier_hash l.census.current_scope np now])

/-- One invocation of any state-mutating instruction, with all its inputs. -/
inductive Op where
  | register (caller : Pubkey) (identity_commitment : Bytes) (now : Int)
  | submitProof (proof_a proof_b proof_c : Bytes)
      (public_inputs : PublicInputs) (now : Int) (bump : Nat)
  | submitAtt (payer verifier : Pubkey) (verifier_is_signer : Bool)
      (timestamp : Int)
      (merkle_root nullifier_hash external_nullifier signal_hash : Bytes)
      (signature : Bytes) (now : Int) (bump : Nat)
  | advance (caller : Pubkey) (now : Int)
  | setRoot (caller : Pubkey) (root : Bytes)
  deriving DecidableEq, Repr

/-- Dispatch an operation to its instruction. -/
def execOp (verify : VerifyFn) (l : Ledger) : Op →
    Except TxError (Ledger × List Event)
  | .register c ic now => register_citizen_ix c l ic now
  | .submitProof a b c pi now bump => submit_census_ix verify l a b c pi now bump
  | .submitAtt p v vs ts mr nh en sh sg now bump =>
      submit_attestation_ix l p v vs ts mr nh en sh sg now bump
  | .advance c now => advance_scope_ix c l now
  | .setRoot c r => set_merkle_root_ix c l r

/-- The committed state after one operation: the new state on success, the
unchanged state on any error (the chain reverts a failing transaction). -/
def step (verify : VerifyFn) (l : Ledger) (op : Op) : Ledger :=
  match execOp verify l op with
  | .ok (l2, _) => l2
  | .error _ => l

/-- The committed state after a sequence of operations. -/
def run (verify : VerifyFn) (l : Ledger) (ops : List Op) : Ledger :=
  ops.foldl (step verify) l

/-- Did an instruction invocation succeed? -/
def exceptOk : Except TxError (Ledger × List Event) → Bool
  | .ok _ => true
  | .error _ => false

/-- The nullifier hash a submission operation tries to claim; none for the
other operations. -/
def opNullifier : Op → Option Bytes
  | .submitProof _ _ _ pi _ _ => some pi.i1
  | .submitAtt _ _ _ _ _ nh _ _ _ _ _ => some nh
  | _ => none


/-! ## Concrete fixtures used by witness theorems -/

/-- A verification function accepting every proof. -/
def vTrue : VerifyFn := fun _ _ _ _ => .ok true

/-- A verification function rejecting every proof. -/
def vFalse : VerifyFn := fun _ _ _ _ => .ok false

/-- The all-zero 32-byte array. -/
def zeros32 : Bytes := List.replicate 32 0

/-- A sample nullifier hash. -/
def nhA : Bytes := List.replicate 32 1

/-- A sample signal hash. -/
def shA : Bytes := List.replicate 32 2

/-- The external nullifier matching scope 1. -/
def enOK : Bytes := expectedExternal 1

/-- An external nullifier matching no scope of the fixtures. -/
def enBAD : Bytes := List.replicate 32 3

/-- A sample identity commitment. -/
def icA : Bytes := List.replicate 32 4

/-- The all-zero 64-byte signature. -/
def sigZ : Bytes := List.replicate 64 0

/-- The all-255 64-byte signature. -/
def sigF : Bytes := List.replicate 64 255

/-- Public inputs consistent with the fresh ledger L1. -/
def piOK : PublicInputs := { i0 := zeros32, i1 := nhA, i2 := shA, i3 := enOK }

/-- Public inputs whose root does not match L1. -/
def piBadRoot : PublicInputs :=
  { i0 := List.replicate 32 9, i1 := nhA, i2 := shA, i3 := enOK }

/-- Public inputs whose external nullifier does not match scope 1. -/
def piBadScope : PublicInputs :=
  { i0 := zeros32, i1 := nhA, i2 := shA, i3 := enBAD }

/-- A fresh ledger: admin 7, scope duration 604800, created at time 0. -/
def L1 : Ledger := { census := init_handler 7 604800 0 255, nullifiers := [] }

/-- The fresh ledger with its population counter at the u64 maximum. -/
def LMax : Ledger :=
  { census := { init_handler 7 604800 0 255 with
                  current_population := U64MOD - 1 },
    nullifiers := [] }

/-- The fresh ledger with its scope counter at the u64 maximum. -/
def LMaxScope : Ledger :=
  { census := { init_handler 7 604800 0 255 with
                  current_scope := U64MOD - 1 },
    nullifiers := [] }

/-- A sample attestation submission against L1. -/
def opAttA : Op := .submitAtt 8 9 true 0 zeros32 nhA enOK shA sigZ 0 255

/-- The ledger after advancing the scope of L1 at time 50. -/
def L2adv : Ledger :=
  { census := { admin := 7, merkle_root := List.replicate 32 0,
                merkle_tree := 0, current_scope := 2, scope_start_time := 50,
                scope_duration := 604800, total_registered := 0,
                current_population := 0, leaf_count := 0, is_active := true,
                bump := 255 },
    nullifiers := [] }

/-- The event list of that scope advance. -/
def evAdv : List Event := [.scopeAdvanced 1 2 0 50]

/-- The ledger after the sample attestation succeeds on L1. -/
def L1att : Ledger :=
  { census := { admin := 7, merkle_root := List.replicate 32 0,
                merkle_tree := 0, current_scope := 1, scope_start_time := 0,
                scope_duration := 604800, total_registered := 0,
                current_population := 1, leaf_count := 0, is_active := true,
                bump := 255 },
    nullifiers := [{ nullifier_hash := nhA, scope := 1, timestamp := 0,
                     bump := 255 }] }

/-- The event list of that attestation. -/
def evAtt : List Event := [.censusCounted nhA 1 1 0]

/-- The ledger after registering one citizen on L1 at time 5. -/
def L1reg : Ledger :=
  { census := { admin := 7, merkle_root := List.replicate 32 0,
                merkle_tree := 0, current_scope := 1, scope_start_time := 0,
                scope_duration := 604800, total_registered := 1,
                current_population := 0, leaf_count := 1, is_active := true,
                bump := 255 },
    nullifiers := [] }

/-- The event list of that registration. -/
def evReg : List Event := [.citizenRegistered icA 0 5]

/-! ## Helper lemmas -/


@[simp] theorem checkedAddU64_eq_none {a b : Nat} :
    checkedAddU64 a b = none ↔ ¬ a + b < U64MOD := by
  simp [checkedAddU64]

@[simp] theorem checkedAddU64_eq_some {a b c : Nat} :
    checkedAddU64 a b = some c ↔ a + b < U64MOD ∧ c = a + b := by
  simp only [checkedAddU64]
  split <;> simp_all <;> omega

theorem att_ok_iff (l : Ledger) (p v : Pubkey) (vs : Bool) (ts : Int)
    (mr nh en sh sg : Bytes) (now : Int) (bump : Nat) :
    exceptOk (submit_attestation_ix l p v vs ts mr nh en sh sg now bump) =
        true ↔
      (vs = true ∧ l.census.is_active = true ∧ hasNullifier l nh = false ∧
       0 ≤ now - ts ∧ now - ts < 300 ∧ mr = l.census.merkle_root ∧
       en = expectedExternal l.census.current_scope ∧
       l.census.current_population + 1 < U64MOD) := by
  simp only [submit_attestation_ix]
  split_ifs with h1 h2 h3 h4 h5 h6 h7
  all_goals try (simp_all [exceptOk, U64MOD]; done)
  all_goals try (simp_all [exceptOk, U64MOD]; omega)
  all_goals split
  all_goals simp_all [exceptOk, U64MOD]
  all_goals omega

theorem census_ok_iff (verify : VerifyFn) (l : Ledger) (pa pb pc : Bytes)
    (pi : PublicInputs) (now : Int) (bump : Nat) :
    exceptOk (submit_census_ix verify l pa pb pc pi now bump) = true ↔
      (l.census.is_active = true ∧ hasNullifier l pi.i1 = false ∧
       pi.i0 = l.census.merkle_root ∧
       pi.i3 = expectedExternal l.census.current_scope ∧
       verify pa pb pc pi = .ok true ∧
       l.census.current_population + 1 < U64MOD) := by
  simp only [submit_census_ix]
  split_ifs with h1 h2 h3 h4
  all_goals try (simp_all [exceptOk, U64MOD]; done)
  all_goals split
  all_goals try split
  all_goals simp_all [exceptOk, U64MOD]

theorem att_ok_shape (l : Ledger) (p v : Pubkey) (vs : Bool) (ts : Int)
    (mr nh en sh sg : Bytes) (now : Int) (bump : Nat) (l2 : Ledger)
    (ev : List Event)
    (h : submit_attestation_ix l p v vs ts mr nh en sh sg now bump =
      .ok (l2, ev)) :
    l2.census.current_population = l.census.current_population + 1 ∧
    l2.census.admin = l.census.admin ∧
    l2.census.merkle_root = l.census.merkle_root ∧
    l2.census.merkle_tree = l.census.merkle_tree ∧
    l2.census.current_scope = l.census.current_scope ∧
    l2.census.scope_start_time = l.census.scope_start_time ∧
    l2.census.scope_duration = l.census.scope_duration ∧
    l2.census.total_registered = l.census.total_registered ∧
    l2.census.leaf_count = l.census.leaf_count ∧
    l2.census.is_active = l.census.is_active ∧
    l2.census.bump = l.census.bump ∧
    l2.nullifiers =
      { nullifier_hash := nh, scope := l.census.current_scope,
        timestamp := now, bump := bump } :: l.nullifiers ∧
    ev = [Event.censusCounted nh l.census.current_scope
            (l.census.current_population + 1) now] := by
  simp only [submit_attestation_ix] at h
  split_ifs at h
  all_goals try (cases h)
  split at h
  · cases h
  · simp only [Except.ok.injEq, Prod.mk.injEq] at h
    obtain ⟨hL, hE⟩ := h
    subst hL
    subst hE
    repeat' apply And.intro
    all_goals simp_all

theorem census_ok_shape (verify : VerifyFn) (l : Ledger) (pa pb pc : Bytes)
    (pi : PublicInputs) (now : Int) (bump : Nat) (l2 : Ledger)
    (ev : List Event)
    (h : submit_census_ix verify l pa pb pc pi now bump = .ok (l2, ev)) :
    l2.census.current_population = l.census.current_population + 1 ∧
    l2.census.admin = l.census.admin ∧
    l2.census.merkle_root = l.census.merkle_root ∧
    l2.census.merkle_tree = l.census.merkle_tree ∧
    l2.census.current_scope = l.census.current_scope ∧
    l2.census.scope_start_time = l.census.scope_start_time ∧
    l2.census.scope_duration = l.census.scope_duration ∧
    l2.census.total_registered = l.census.total_registered ∧
    l2.census.leaf_count = l.census.leaf_count ∧
    l2.census.is_active = l.census.is_active ∧
    l2.census.bump = l.census.bump ∧
    l2.nullifiers =
      { nullifier_hash := pi.i1, scope := l.census.current_scope,
        timestamp := now, bump := bump } :: l.nullifiers ∧
    ev = [Event.censusCounted pi.i1 l.census.current_scope
            (l.census.current_population + 1) now] := by
  simp only [submit_census_ix] at h
  split_ifs at h
  all_goals try (cases h)
  split at h
  all_goals try (cases h)
  split at h
  · cases h
  · simp only [Except.ok.injEq, Prod.mk.injEq] at h
    obtain ⟨hL, hE⟩ := h
    subst hL
    subst hE
    repeat' apply And.intro
    all_goals simp_all

theorem register_ok_shape (caller : Pubkey) (l : Ledger) (ic : Bytes)
    (now : Int) (l2 : Ledger) (ev : List Event)
    (h : register_citizen_ix caller l ic now = .ok (l2, ev)) :
    l2.census.leaf_count = l.census.leaf_count + 1 ∧
    l2.census.total_registered = l.census.total_registered + 1 ∧
    l2.census.admin = l.census.admin ∧
    l2.census.merkle_root = l.census.merkle_root ∧
    l2.census.merkle_tree = l.census.merkle_tree ∧
    l2.census.current_scope = l.census.current_scope ∧
    l2.census.scope_start_time = l.census.scope_start_time ∧
    l2.census.scope_duration = l.census.scope_duration ∧
    l2.census.current_population = l.census.current_population ∧
    l2.census.is_active = l.census.is_active ∧
    l2.census.bump = l.census.bump ∧
    l2.nullifiers = l.nullifiers ∧
    ev = [Event.citizenRegistered ic l.census.leaf_count now] := by
  simp only [register_citizen_ix] at h
  split_ifs at h
  split at h
  · cases h
  · split at h
    · cases h
    · simp only [Except.ok.injEq, Prod.mk.injEq] at h
      obtain ⟨hL, hE⟩ := h
      subst hL
      subst hE
      repeat' apply And.intro
      all_goals simp_all

theorem advance_ok_shape (caller : Pubkey) (l : Ledger) (now : Int)
    (l2 : Ledger) (ev : List Event)
    (h : advance_scope_ix caller l now = .ok (l2, ev)) :
    l2.census.current_scope = l.census.current_scope + 1 ∧
    l2.census.scope_start_time = now ∧
    l2.census.current_population = 0 ∧
    l2.census.admin = l.census.admin ∧
    l2.census.merkle_root = l.census.merkle_root ∧
    l2.census.merkle_tree = l.census.merkle_tree ∧
    l2.census.scope_duration = l.census.scope_duration ∧
    l2.census.total_registered = l.census.total_registered ∧
    l2.census.leaf_count = l.census.leaf_count ∧
    l2.census.is_active = l.census.is_active ∧
    l2.census.bump = l.census.bump ∧
    l2.nullifiers = l.nullifiers ∧
    ev = [Event.scopeAdvanced l.census.current_scope
            (l.census.current_scope + 1) l.census.current_population now] := by
  simp only [advance_scope_ix] at h
  split_ifs at h
  split at h
  · cases h
  · simp only [Except.ok.injEq, Prod.mk.injEq] at h
    obtain ⟨hL, hE⟩ := h
    subst hL
    subst hE
    repeat' apply And.intro
    all_goals simp_all

theorem setRoot_ok_shape (caller : Pubkey) (l : Ledger) (root : Bytes)
    (l2 : Ledger) (ev : List Event)
    (h : set_merkle_root_ix caller l root = .ok (l2, ev)) :
    l2.census.merkle_root = root ∧
    l2.census.admin = l.census.admin ∧
    l2.census.merkle_tree = l.census.merkle_tree ∧
    l2.census.current_scope = l.census.current_scope ∧
    l2.census.scope_start_time = l.census.scope_start_time ∧
    l2.census.scope_duration = l.census.scope_duration ∧
    l2.census.total_registered = l.census.total_registered ∧
    l2.census.current_population = l.census.current_population ∧
    l2.census.leaf_count = l.census.leaf_count ∧
    l2.census.is_active = l.census.is_active ∧
    l2.census.bump = l.census.bump ∧
    l2.nullifiers = l.nullifiers ∧
    ev = [] := by
  simp only [set_merkle_root_ix] at h
  split_ifs at h
  cases h
  repeat' apply And.intro
  all_goals rfl


theorem step_of_ok {verify : VerifyFn} {l l2 : Ledger} {op : Op}
    {ev : List Event} (h : execOp verify l op = .ok (l2, ev)) :
    step verify l op = l2 := by
  simp [step, h]

theorem step_of_err {verify : VerifyFn} {l : Ledger} {op : Op} {e : TxError}
    (h : execOp verify l op = .error e) : step verify l op = l := by
  simp [step, h]

theorem step_of_not_ok {verify : VerifyFn} {l : Ledger} {op : Op}
    (h : exceptOk (execOp verify l op) = false) : step verify l op = l := by
  unfold step
  rcases hx : execOp verify l op with e | p
  · rfl
  · rw [hx] at h
    simp [exceptOk] at h

theorem exec_nullifiers_extend {verify : VerifyFn} {l l2 : Ledger} {op : Op}
    {ev : List Event} (h : execOp verify l op = .ok (l2, ev)) :
    l2.nullifiers = l.nullifiers ∨ ∃ r, l2.nullifiers = r :: l.nullifiers := by
  cases op with
  | register c ic now =>
    exact Or.inl (register_ok_shape c l ic now l2 ev h).2.2.2.2.2.2.2.2.2.2.2.1
  | submitProof a b c pi now bump =>
    exact Or.inr ⟨_, (census_ok_shape verify l a b c pi now bump l2 ev h).2.2.2.2.2.2.2.2.2.2.2.1⟩
  | submitAtt p v vs ts mr nh en sh sg now bump =>
    exact Or.inr ⟨_, (att_ok_shape l p v vs ts mr nh en sh sg now bump l2 ev h).2.2.2.2.2.2.2.2.2.2.2.1⟩
  | advance c now =>
    exact Or.inl (advance_ok_shape c l now l2 ev h).2.2.2.2.2.2.2.2.2.2.2.1
  | setRoot c r =>
    exact Or.inl (setRoot_ok_shape c l r l2 ev h).2.2.2.2.2.2.2.2.2.2.2.1

theorem hasNullifier_step_mono {verify : VerifyFn} {l : Ledger} {op : Op}
    {nh : Bytes} (h : hasNullifier l nh = true) :
    hasNullifier (step verify l op) nh = true := by
  rcases hx : execOp verify l op with e | p
  · rw [step_of_err hx]
    exact h
  · rcases p with ⟨l2, ev⟩
    rw [step_of_ok hx]
    rcases exec_nullifiers_extend hx with he | ⟨r, he⟩
    · simpa [hasNullifier, he] using h
    · simp only [hasNullifier, he, List.any_cons]
      simp only [hasNullifier] at h
      simp [h]

theorem hasNullifier_run_mono {verify : VerifyFn} {nh : Bytes}
    {ops : List Op} {l : Ledger} (h : hasNullifier l nh = true) :
    hasNullifier (run verify l ops) nh = true := by
  induction ops generalizing l with
  | nil => exact h
  | cons op rest ih =>
    simp only [run, List.foldl_cons]
    exact ih (hasNullifier_step_mono h)

theorem claim_sets_nullifier {verify : VerifyFn} {l l2 : Ledger} {op : Op}
    {ev : List Event} {nh : Bytes} (hn : opNullifier op = some nh)
    (h : execOp verify l op = .ok (l2, ev)) :
    hasNullifier l2 nh = true := by
  cases op with
  | register c ic now => cases hn
  | advance c now => cases hn
  | setRoot c r => cases hn
  | submitProof a b c pi now bump =>
    have hs := (census_ok_shape verify l a b c pi now bump l2 ev h).2.2.2.2.2.2.2.2.2.2.2.1
    simp only [opNullifier, Option.some.injEq] at hn
    subst hn
    simp [hasNullifier, hs]
  | submitAtt p v vs ts mr nh2 en sh sg now bump =>
    have hs := (att_ok_shape l p v vs ts mr nh2 en sh sg now bump l2 ev h).2.2.2.2.2.2.2.2.2.2.2.1
    simp only [opNullifier, Option.some.injEq] at hn
    subst hn
    simp [hasNullifier, hs]

theorem dup_claim_fails {verify : VerifyFn} {l : Ledger} {op : Op}
    {nh : Bytes} (hn : opNullifier op = some nh)
    (h : hasNullifier l nh = true) :
    exceptOk (execOp verify l op) = false := by
  cases op with
  | register c ic now => cases hn
  | advance c now => cases hn
  | setRoot c r => cases hn
  | submitProof a b c pi now bump =>
    simp only [opNullifier, Option.some.injEq] at hn
    subst hn
    simp only [execOp, submit_census_ix]
    split_ifs <;> simp_all [exceptOk]
  | submitAtt p v vs ts mr nh2 en sh sg now bump =>
    simp only [opNullifier, Option.some.injEq] at hn
    subst hn
    simp only [execOp, submit_attestation_ix]
    split_ifs <;> simp_all [exceptOk]


theorem census_root_err (verify : VerifyFn) (l : Ledger) (pa pb pc : Bytes)
    (pi : PublicInputs) (now : Int) (bump : Nat)
    (hact : l.census.is_active = true) (hdup : hasNullifier l pi.i1 = false)
    (hroot : pi.i0 ≠ l.census.merkle_root) :
    submit_census_ix verify l pa pb pc pi now bump =
      .error (.census .invalidMerkleRoot) := by
  simp only [submit_census_ix]
  split_ifs <;> simp_all

theorem census_scope_err (verify : VerifyFn) (l : Ledger) (pa pb pc : Bytes)
    (pi : PublicInputs) (now : Int) (bump : Nat)
    (hact : l.census.is_active = true) (hdup : hasNullifier l pi.i1 = false)
    (hroot : pi.i0 = l.census.merkle_root)
    (hen : pi.i3 ≠ expectedExternal l.census.current_scope) :
    submit_census_ix verify l pa pb pc pi now bump =
      .error (.census .censusScopeExpired) := by
  simp only [submit_census_ix]
  split_ifs <;> simp_all

theorem census_verify_indep (verify1 verify2 : VerifyFn) (l : Ledger)
    (pa pb pc : Bytes) (pi : PublicInputs) (now : Int) (bump : Nat)
    (h : pi.i0 ≠ l.census.merkle_root ∨
         pi.i3 ≠ expectedExternal l.census.current_scope) :
    submit_census_ix verify1 l pa pb pc pi now bump =
      submit_census_ix verify2 l pa pb pc pi now bump := by
  simp only [submit_census_ix]
  split_ifs <;> simp_all

theorem att_scope_err (l : Ledger) (p v : Pubkey) (ts : Int)
    (mr nh en sh sg : Bytes) (now : Int) (bump : Nat)
    (hact : l.census.is_active = true) (hdup : hasNullifier l nh = false)
    (hfresh : 0 ≤ now - ts ∧ now - ts < 300)
    (hroot : mr = l.census.merkle_root)
    (hen : en ≠ expectedExternal l.census.current_scope) :
    submit_attestation_ix l p v true ts mr nh en sh sg now bump =
      .error (.census .censusScopeExpired) := by
  simp only [submit_attestation_ix]
  split_ifs <;> simp_all

theorem att_expired_iff (l : Ledger) (p v : Pubkey) (ts : Int)
    (mr nh en sh sg : Bytes) (now : Int) (bump : Nat)
    (hact : l.census.is_active = true) (hdup : hasNullifier l nh = false) :
    (submit_attestation_ix l p v true ts mr nh en sh sg now bump =
        .error (.census .attestationExpired)) ↔
      ¬(0 ≤ now - ts ∧ now - ts < 300) := by
  simp only [submit_attestation_ix]
  split_ifs <;> try simp_all
  split <;> simp


theorem expectedExternal_eq_spec (s : Nat) :
    expectedExternal s = specExternalNullifier s := by
  simp [expectedExternal, specExternalNullifier, u64ToLeBytes, leBytesAux,
    Nat.div_div_eq_div_mul]

theorem att_overflow_err (l : Ledger) (p v : Pubkey) (ts : Int)
    (mr nh en sh sg : Bytes) (now : Int) (bump : Nat)
    (hact : l.census.is_active = true) (hdup : hasNullifier l nh = false)
    (hfresh : 0 ≤ now - ts ∧ now - ts < 300)
    (hroot : mr = l.census.merkle_root)
    (hen : en = expectedExternal l.census.current_scope)
    (hpop : ¬ l.census.current_population + 1 < U64MOD) :
    submit_attestation_ix l p v true ts mr nh en sh sg now bump =
      .error (.census .arithmeticOverflow) := by
  simp only [submit_attestation_ix]
  split_ifs <;> try simp_all
  split <;> simp_all
  omega

theorem census_overflow_err (verify : VerifyFn) (l : Ledger)
    (pa pb pc : Bytes) (pi : PublicInputs) (now : Int) (bump : Nat)
    (hact : l.census.is_active = true) (hdup : hasNullifier l pi.i1 = false)
    (hroot : pi.i0 = l.census.merkle_root)
    (hen : pi.i3 = expectedExternal l.census.current_scope)
    (hv : verify pa pb pc pi = .ok true)
    (hpop : ¬ l.census.current_population + 1 < U64MOD) :
    submit_census_ix verify l pa pb pc pi now bump =
      .error (.census .arithmeticOverflow) := by
  simp only [submit_census_ix]
  split_ifs <;> try simp_all
  split <;> simp_all
  all_goals omega

theorem step_total_leaf (verify : VerifyFn) (l : Ledger) (op : Op) :
    ((step verify l op).census.total_registered = l.census.total_registered ∧
     (step verify l op).census.leaf_count = l.census.leaf_count) ∨
    ((step verify l op).census.total_registered =
       l.census.total_registered + 1 ∧
     (step verify l op).census.leaf_count = l.census.leaf_count + 1) := by
  rcases hx : execOp verify l op with e | ⟨l2, ev⟩
  · rw [step_of_err hx]
    exact Or.inl ⟨rfl, rfl⟩
  · rw [step_of_ok hx]
    cases op with
    | register c ic now =>
      have hs := register_ok_shape c l ic now l2 ev hx
      exact Or.inr ⟨hs.2.1, hs.1⟩
    | submitProof a b c pi now bump =>
      have hs := census_ok_shape verify l a b c pi now bump l2 ev hx
      exact Or.inl ⟨hs.2.2.2.2.2.2.2.1, hs.2.2.2.2.2.2.2.2.1⟩
    | submitAtt p v vs ts mr nh en sh sg now bump =>
      have hs := att_ok_shape l p v vs ts mr nh en sh sg now bump l2 ev hx
      exact Or.inl ⟨hs.2.2.2.2.2.2.2.1, hs.2.2.2.2.2.2.2.2.1⟩
    | advance c now =>
      have hs := advance_ok_shape c l now l2 ev hx
      exact Or.inl ⟨hs.2.2.2.2.2.2.2.1, hs.2.2.2.2.2.2.2.2.1⟩
    | setRoot c r =>
      have hs := setRoot_ok_shape c l r l2 ev hx
      exact Or.inl ⟨hs.2.2.2.2.2.2.1, hs.2.2.2.2.2.2.2.2.1⟩

/-! ## Claim theorems and witnesses -/


/-- C1: Nullifier uniqueness.  For every nullifier hash, at most one
submission (submit_census or submit_attestation) using it as its nullifier
ever succeeds: once a submission claiming hash nh has succeeded, every later
submission claiming nh fails, whatever operations (including scope advances
and root updates) happen in between.  Uniqueness is keyed on the hash alone,
so a hash claimed in one scope can never be claimed in a later scope. -/
theorem nullifier_uniqueness (verify : VerifyFn) (l0 : Ledger)
    (pre mid : List Op) (op op2 : Op) (nh : Bytes)
    (h1 : opNullifier op = some nh) (h2 : opNullifier op2 = some nh)
    (hs : exceptOk (execOp verify (run verify l0 pre) op) = true) :
    exceptOk (execOp verify
      (run verify (step verify (run verify l0 pre) op) mid) op2) = false := by
  rcases hx : execOp verify (run verify l0 pre) op with e | pr
  · rw [hx] at hs
    simp [exceptOk] at hs
  · rcases pr with ⟨l2, ev⟩
    rw [step_of_ok hx]
    exact dup_claim_fails h2 (hasNullifier_run_mono (claim_sets_nullifier h1 hx))

/-- Witness for C1: on the fresh ledger, the sample attestation succeeds; and
after it succeeds and the scope is then advanced, resubmitting the very same
attestation (same nullifier hash) fails. -/
theorem nullifier_uniqueness_witness :
    opNullifier opAttA = some nhA ∧
    exceptOk (execOp vTrue (run vTrue L1 []) opAttA) = true ∧
    exceptOk (execOp vTrue
      (run vTrue (step vTrue (run vTrue L1 []) opAttA) [Op.advance 7 50])
      opAttA) = false :=
  ⟨rfl, by decide,
   nullifier_uniqueness vTrue L1 [] [Op.advance 7 50] opAttA opAttA nhA rfl rfl
     (by decide)⟩

/-- C2 counterexample: the attestation handler accepts the same message, in
the same state, under two different 64-byte signature arguments (the
all-zero and the all-255 strings).  Acceptance therefore cannot coincide
with validity of the signature argument over the reconstructed message, and
no allow-list restricts the signer: the claim as stated is false of the
code. -/
theorem att_signature_unchecked_cex :
    exceptOk (submit_attestation_ix L1 8 9 true 0 zeros32 nhA enOK shA sigZ
      0 255) = true ∧
    exceptOk (submit_attestation_ix L1 8 9 true 0 zeros32 nhA enOK shA sigF
      0 255) = true ∧
    sigZ ≠ sigF := by decide

/-- C2 amended: submit_attestation accepts exactly when the verifier account
co-signed the transaction, the census is active, the nullifier is fresh, the
timestamp is within the freshness window, and root and external nullifier
match the ledger, with room in the population counter.  The 64-byte
signature argument is never verified against the reconstructed message, and
no allow-list of authorized verifiers exists: any co-signing key is
accepted. -/
theorem att_accept_characterization (l : Ledger) (p v : Pubkey) (vs : Bool)
    (ts : Int) (mr nh en sh sg : Bytes) (now : Int) (bump : Nat) :
    exceptOk (submit_attestation_ix l p v vs ts mr nh en sh sg now bump) =
        true ↔
      (vs = true ∧ l.census.is_active = true ∧ hasNullifier l nh = false ∧
       0 ≤ now - ts ∧ now - ts < 300 ∧ mr = l.census.merkle_root ∧
       en = expectedExternal l.census.current_scope ∧
       l.census.current_population + 1 < U64MOD) :=
  att_ok_iff l p v vs ts mr nh en sh sg now bump

/-- C9: the one-time ledger creation sets scope 1, population 0, the
all-zero root, the active flag, zero counters, the caller as admin, the
given scope duration, and the current time as scope start. -/
theorem init_postconditions (admin : Pubkey) (scope_duration now : Int)
    (bump : Nat) :
    (init_handler admin scope_duration now bump).current_scope = 1 ∧
    (init_handler admin scope_duration now bump).current_population = 0 ∧
    (init_handler admin scope_duration now bump).merkle_root =
      List.replicate 32 0 ∧
    (init_handler admin scope_duration now bump).is_active = true ∧
    (init_handler admin scope_duration now bump).total_registered = 0 ∧
    (init_handler admin scope_duration now bump).leaf_count = 0 ∧
    (init_handler admin scope_duration now bump).admin = admin ∧
    (init_handler admin scope_duration now bump).scope_duration =
      scope_duration ∧
    (init_handler admin scope_duration now bump).scope_start_time = now :=
  ⟨rfl, rfl, rfl, rfl, rfl, rfl, rfl, rfl, rfl⟩

/-- C10: the outcome of submit_attestation does not depend on the 64-byte
signature argument: with all other inputs and the ledger state fixed, any
two signature values produce identical results (the handler reconstructs
the signed message but never checks the signature bytes against it). -/
theorem att_signature_independence (l : Ledger) (p v : Pubkey) (vs : Bool)
    (ts : Int) (mr nh en sh sg1 sg2 : Bytes) (now : Int) (bump : Nat) :
    submit_attestation_ix l p v vs ts mr nh en sh sg1 now bump =
      submit_attestation_ix l p v vs ts mr nh en sh sg2 now bump := rfl


/-- C3: scope gating with bit-exact derivation.  The expected external
nullifier computed by the handlers equals the spec formulation (8-byte
little-endian scope, zero-extended to 32 bytes); any proof submission whose
public input 3, and any attestation whose external-nullifier argument, does
not equal this value for the current scope is rejected with no state change,
and the error is the scope-expired error whenever no earlier check fails
first. -/
theorem scope_gating (verify : VerifyFn) (l : Ledger) (sc : Nat)
    (pa pb pc : Bytes) (pi : PublicInputs) (now : Int) (bump : Nat)
    (p v : Pubkey) (vsA : Bool) (ts : Int) (mr nh en sh sg : Bytes)
    (nowA : Int) (bumpA : Nat) :
    (expectedExternal sc = specExternalNullifier sc) ∧
    (pi.i3 ≠ expectedExternal l.census.current_scope →
       exceptOk (submit_census_ix verify l pa pb pc pi now bump) = false ∧
       step verify l (.submitProof pa pb pc pi now bump) = l) ∧
    (l.census.is_active = true → hasNullifier l pi.i1 = false →
       pi.i0 = l.census.merkle_root →
       pi.i3 ≠ expectedExternal l.census.current_scope →
       submit_census_ix verify l pa pb pc pi now bump =
         .error (.census .censusScopeExpired)) ∧
    (en ≠ expectedExternal l.census.current_scope →
       exceptOk (submit_attestation_ix l p v vsA ts mr nh en sh sg nowA
         bumpA) = false ∧
       step verify l (.submitAtt p v vsA ts mr nh en sh sg nowA bumpA) = l) ∧
    (l.census.is_active = true → hasNullifier l nh = false →
       0 ≤ nowA - ts → nowA - ts < 300 → mr = l.census.merkle_root →
       en ≠ expectedExternal l.census.current_scope →
       submit_attestation_ix l p v true ts mr nh en sh sg nowA bumpA =
         .error (.census .censusScopeExpired)) := by
  refine ⟨expectedExternal_eq_spec sc, ?_, ?_, ?_, ?_⟩
  · intro hen
    have hfail :
        exceptOk (submit_census_ix verify l pa pb pc pi now bump) = false := by
      cases hb : exceptOk (submit_census_ix verify l pa pb pc pi now bump) with
      | false => rfl
      | true =>
        exact absurd
          ((census_ok_iff verify l pa pb pc pi now bump).mp hb).2.2.2.1 hen
    exact ⟨hfail, step_of_not_ok hfail⟩
  · intro h1 h2 h3 h4
    exact census_scope_err verify l pa pb pc pi now bump h1 h2 h3 h4
  · intro hen
    have hfail :
        exceptOk (submit_attestation_ix l p v vsA ts mr nh en sh sg nowA
          bumpA) = false := by
      cases hb : exceptOk (submit_attestation_ix l p v vsA ts mr nh en sh sg
        nowA bumpA) with
      | false => rfl
      | true =>
        exact absurd
          ((att_ok_iff l p v vsA ts mr nh en sh sg nowA bumpA).mp
            hb).2.2.2.2.2.2.1 hen
    exact ⟨hfail, step_of_not_ok hfail⟩
  · intro h1 h2 h3 h4 h5 h6
    exact att_scope_err l p v ts mr nh en sh sg nowA bumpA h1 h2 ⟨h3, h4⟩ h5 h6

/-- Witness for C3: on the fresh ledger, a proof submission with a
non-matching external nullifier fails, and an attestation with a
non-matching external nullifier is rejected with the scope-expired error. -/
theorem scope_gating_witness :
    expectedExternal 1 = specExternalNullifier 1 ∧
    exceptOk (submit_census_ix vTrue L1 sigZ sigZ sigZ piBadScope 0 255) =
      false ∧
    submit_attestation_ix L1 8 9 true 0 zeros32 nhA enBAD shA sigZ 0 255 =
      .error (.census .censusScopeExpired) := by
  have h := scope_gating vTrue L1 1 sigZ sigZ sigZ piBadScope 0 255 8 9 true
    0 zeros32 nhA enBAD shA sigZ 0 255
  exact ⟨h.1, (h.2.1 (by decide)).1,
    h.2.2.2.2 (by decide) (by decide) (by decide) (by decide) (by decide)
      (by decide)⟩

/-- C4: root gating.  A proof submission whose public input 0, and an
attestation whose root argument, differs from the stored root is rejected;
for the proof path the result is moreover identical under any two
verification functions (the cryptographic check is not consulted when the
root or the scope check fails, which precede it), and the error is the
invalid-merkle-root error whenever no earlier check fails first. -/
theorem root_gating (verify1 verify2 : VerifyFn) (l : Ledger)
    (pa pb pc : Bytes) (pi : PublicInputs) (now : Int) (bump : Nat)
    (p v : Pubkey) (vsA : Bool) (ts : Int) (mr nh en sh sg : Bytes)
    (nowA : Int) (bumpA : Nat) :
    (pi.i0 ≠ l.census.merkle_root →
       exceptOk (submit_census_ix verify1 l pa pb pc pi now bump) = false) ∧
    (pi.i0 ≠ l.census.merkle_root ∨
       pi.i3 ≠ expectedExternal l.census.current_scope →
       submit_census_ix verify1 l pa pb pc pi now bump =
         submit_census_ix verify2 l pa pb pc pi now bump) ∧
    (l.census.is_active = true → hasNullifier l pi.i1 = false →
       pi.i0 ≠ l.census.merkle_root →
       submit_census_ix verify1 l pa pb pc pi now bump =
         .error (.census .invalidMerkleRoot)) ∧
    (mr ≠ l.census.merkle_root →
       exceptOk (submit_attestation_ix l p v vsA ts mr nh en sh sg nowA
         bumpA) = false) := by
  refine ⟨?_, ?_, ?_, ?_⟩
  · intro hroot
    cases hb : exceptOk (submit_census_ix verify1 l pa pb pc pi now bump) with
    | false => rfl
    | true =>
      exact absurd
        ((census_ok_iff verify1 l pa pb pc pi now bump).mp hb).2.2.1 hroot
  · exact census_verify_indep verify1 verify2 l pa pb pc pi now bump
  · intro h1 h2 h3
    exact census_root_err verify1 l pa pb pc pi now bump h1 h2 h3
  · intro hroot
    cases hb : exceptOk (submit_attestation_ix l p v vsA ts mr nh en sh sg
      nowA bumpA) with
    | false => rfl
    | true =>
      exact absurd
        ((att_ok_iff l p v vsA ts mr nh en sh sg nowA bumpA).mp
          hb).2.2.2.2.2.1 hroot

/-- Witness for C4: on the fresh ledger, a proof submission with a
mismatching root fails with the invalid-merkle-root error, produces the same
result under an all-accepting and an all-rejecting verification function,
and an attestation with a mismatching root fails too. -/
theorem root_gating_witness :
    exceptOk (submit_census_ix vTrue L1 sigZ sigZ sigZ piBadRoot 0 255) =
      false ∧
    submit_census_ix vTrue L1 sigZ sigZ sigZ piBadRoot 0 255 =
      submit_census_ix vFalse L1 sigZ sigZ sigZ piBadRoot 0 255 ∧
    submit_census_ix vTrue L1 sigZ sigZ sigZ piBadRoot 0 255 =
      .error (.census .invalidMerkleRoot) ∧
    exceptOk (submit_attestation_ix L1 8 9 true 0 (List.replicate 32 9) nhA
      enOK shA sigZ 0 255) = false := by
  have h := root_gating vTrue vFalse L1 sigZ sigZ sigZ piBadRoot 0 255 8 9
    true 0 (List.replicate 32 9) nhA enOK shA sigZ 0 255
  exact ⟨h.1 (by decide), h.2.1 (Or.inl (by decide)),
    h.2.2.1 (by decide) (by decide) (by decide), h.2.2.2 (by decide)⟩


/-- C5: advance_scope increments the scope by exactly 1 (failing with the
arithmetic-overflow error, changing nothing, when the u64 counter is at its
maximum), resets the scope start time to now and the population to 0, leaves
every other ledger field and every nullifier record unchanged, and emits the
event carrying the outgoing scope id and its final population. -/
theorem advance_scope_spec (verify : VerifyFn) (caller : Pubkey) (l : Ledger)
    (now : Int) (hadmin : l.census.admin = caller) :
    (∀ l2 ev, advance_scope_ix caller l now = .ok (l2, ev) →
       l2.census.current_scope = l.census.current_scope + 1 ∧
       l2.census.scope_start_time = now ∧
       l2.census.current_population = 0 ∧
       l2.census.total_registered = l.census.total_registered ∧
       l2.census.leaf_count = l.census.leaf_count ∧
       l2.census.merkle_root = l.census.merkle_root ∧
       l2.census.is_active = l.census.is_active ∧
       l2.census.admin = l.census.admin ∧
       l2.census.scope_duration = l.census.scope_duration ∧
       l2.nullifiers = l.nullifiers ∧
       ev = [Event.scopeAdvanced l.census.current_scope
               (l.census.current_scope + 1) l.census.current_population
               now]) ∧
    (l.census.current_scope = U64MOD - 1 →
       advance_scope_ix caller l now = .error (.census .arithmeticOverflow) ∧
       step verify l (.advance caller now) = l) := by
  constructor
  · intro l2 ev h
    have hs := advance_ok_shape caller l now l2 ev h
    exact ⟨hs.1, hs.2.1, hs.2.2.1, hs.2.2.2.2.2.2.2.1,
      hs.2.2.2.2.2.2.2.2.1, hs.2.2.2.2.1, hs.2.2.2.2.2.2.2.2.2.1,
      hs.2.2.2.1, hs.2.2.2.2.2.2.1, hs.2.2.2.2.2.2.2.2.2.2.2.1,
      hs.2.2.2.2.2.2.2.2.2.2.2.2⟩
  · intro hmax
    have herr : advance_scope_ix caller l now =
        .error (.census .arithmeticOverflow) := by
      simp only [advance_scope_ix]
      split_ifs with hc
      · exact absurd hadmin hc
      · rw [hmax]
        have hnone : checkedAddU64 (U64MOD - 1) 1 = none := by
          rw [checkedAddU64_eq_none]
          simp only [U64MOD]
          omega
        rw [hnone]
    exact ⟨herr, step_of_err herr⟩

/-- Witness for C5: advancing the fresh ledger at time 50 produces exactly
the expected successor state and event, and advancing a ledger whose scope
counter is at the u64 maximum fails with the arithmetic-overflow error and
commits nothing. -/
theorem advance_scope_spec_witness :
    (L2adv.census.current_scope = L1.census.current_scope + 1 ∧
     L2adv.census.scope_start_time = 50 ∧
     L2adv.census.current_population = 0 ∧
     L2adv.census.total_registered = L1.census.total_registered ∧
     L2adv.census.leaf_count = L1.census.leaf_count ∧
     L2adv.census.merkle_root = L1.census.merkle_root ∧
     L2adv.census.is_active = L1.census.is_active ∧
     L2adv.census.admin = L1.census.admin ∧
     L2adv.census.scope_duration = L1.census.scope_duration ∧
     L2adv.nullifiers = L1.nullifiers ∧
     evAdv = [Event.scopeAdvanced L1.census.current_scope
                (L1.census.current_scope + 1) L1.census.current_population
                50]) ∧
    advance_scope_ix 7 LMaxScope 50 = .error (.census .arithmeticOverflow) ∧
    step vTrue LMaxScope (.advance 7 50) = LMaxScope := by
  have h1 := advance_scope_spec vTrue 7 L1 50 rfl
  have h2 := advance_scope_spec vTrue 7 LMaxScope 50 rfl
  exact ⟨h1.1 L2adv evAdv rfl, (h2.2 rfl).1, (h2.2 rfl).2⟩


/-- C6: attestation freshness boundary.  With the census active and the
nullifier fresh, the attestation handler returns the expiry error exactly
when the timestamp is outside the window 0 ≤ now - timestamp < 300; in
particular a difference of 300 or of -1 is rejected with the expiry error,
while a difference of 299 is accepted when the remaining checks pass. -/
theorem freshness_boundary (l : Ledger) (p v : Pubkey) (ts : Int)
    (mr nh en sh sg : Bytes) (now : Int) (bump : Nat)
    (hact : l.census.is_active = true) (hdup : hasNullifier l nh = false) :
    ((submit_attestation_ix l p v true ts mr nh en sh sg now bump =
        .error (.census .attestationExpired)) ↔
      ¬(0 ≤ now - ts ∧ now - ts < 300)) ∧
    (now - ts = 300 →
       submit_attestation_ix l p v true ts mr nh en sh sg now bump =
         .error (.census .attestationExpired)) ∧
    (now - ts = -1 →
       submit_attestation_ix l p v true ts mr nh en sh sg now bump =
         .error (.census .attestationExpired)) ∧
    (now - ts = 299 → mr = l.census.merkle_root →
       en = expectedExternal l.census.current_scope →
       l.census.current_population + 1 < U64MOD →
       exceptOk (submit_attestation_ix l p v true ts mr nh en sh sg now
         bump) = true) := by
  have hiff := att_expired_iff l p v ts mr nh en sh sg now bump hact hdup
  refine ⟨hiff, ?_, ?_, ?_⟩
  · intro h
    exact hiff.mpr (by omega)
  · intro h
    exact hiff.mpr (by omega)
  · intro h1 h2 h3 h4
    exact (att_ok_iff l p v true ts mr nh en sh sg now bump).mpr
      ⟨rfl, hact, hdup, by omega, by omega, h2, h3, h4⟩

/-- Witness for C6: on the fresh ledger at time 0, an attestation
timestamped -300 (difference 300) and one timestamped 1 (difference -1) are
rejected with the expiry error, while one timestamped -299 (difference 299)
is accepted. -/
theorem freshness_boundary_witness :
    submit_attestation_ix L1 8 9 true (-300) zeros32 nhA enOK shA sigZ 0
      255 = .error (.census .attestationExpired) ∧
    submit_attestation_ix L1 8 9 true 1 zeros32 nhA enOK shA sigZ 0 255 =
      .error (.census .attestationExpired) ∧
    exceptOk (submit_attestation_ix L1 8 9 true (-299) zeros32 nhA enOK shA
      sigZ 0 255) = true := by
  refine ⟨(freshness_boundary L1 8 9 (-300) zeros32 nhA enOK shA sigZ 0 255
      rfl rfl).2.1 (by decide),
    (freshness_boundary L1 8 9 1 zeros32 nhA enOK shA sigZ 0 255 rfl
      rfl).2.2.1 (by decide),
    (freshness_boundary L1 8 9 (-299) zeros32 nhA enOK shA sigZ 0 255 rfl
      rfl).2.2.2 (by decide) rfl rfl (by decide)⟩

/-- C7: exactly-once increment and atomic failure.  A successful submission
(proof or attestation) increments the population by exactly 1, never wraps
(success implies the incremented value still fits in u64; with the counter
at its maximum no submission can succeed, and with every other check passing
the attestation path fails with the arithmetic-overflow error), and pushes
exactly one new nullifier record; a failed submission commits no state
change. -/
theorem exactly_once_increment (verify : VerifyFn) (l : Ledger)
    (pa pb pc : Bytes) (pi : PublicInputs) (now : Int) (bump : Nat)
    (p v : Pubkey) (vs : Bool) (ts : Int) (mr nh en sh sg : Bytes)
    (nowA : Int) (bumpA : Nat) :
    (∀ l2 ev, submit_census_ix verify l pa pb pc pi now bump = .ok (l2, ev) →
       l2.census.current_population = l.census.current_population + 1 ∧
       l.census.current_population + 1 < U64MOD ∧
       l2.nullifiers =
         { nullifier_hash := pi.i1, scope := l.census.current_scope,
           timestamp := now, bump := bump } :: l.nullifiers) ∧
    (∀ l2 ev, submit_attestation_ix l p v vs ts mr nh en sh sg nowA bumpA =
        .ok (l2, ev) →
       l2.census.current_population = l.census.current_population + 1 ∧
       l.census.current_population + 1 < U64MOD ∧
       l2.nullifiers =
         { nullifier_hash := nh, scope := l.census.current_scope,
           timestamp := nowA, bump := bumpA } :: l.nullifiers) ∧
    (l.census.current_population = U64MOD - 1 →
       exceptOk (submit_census_ix verify l pa pb pc pi now bump) = false ∧
       exceptOk (submit_attestation_ix l p v vs ts mr nh en sh sg nowA
         bumpA) = false) ∧
    (vs = true → l.census.is_active = true → hasNullifier l nh = false →
       0 ≤ nowA - ts → nowA - ts < 300 → mr = l.census.merkle_root →
       en = expectedExternal l.census.current_scope →
       l.census.current_population = U64MOD - 1 →
       submit_attestation_ix l p v vs ts mr nh en sh sg nowA bumpA =
         .error (.census .arithmeticOverflow)) ∧
    (exceptOk (submit_census_ix verify l pa pb pc pi now bump) = false →
       step verify l (.submitProof pa pb pc pi now bump) = l) ∧
    (exceptOk (submit_attestation_ix l p v vs ts mr nh en sh sg nowA
        bumpA) = false →
       step verify l (.submitAtt p v vs ts mr nh en sh sg nowA bumpA) = l) := by
  refine ⟨?_, ?_, ?_, ?_, ?_, ?_⟩
  · intro l2 ev h
    have hs := census_ok_shape verify l pa pb pc pi now bump l2 ev h
    have hb : exceptOk (submit_census_ix verify l pa pb pc pi now bump) =
        true := by rw [h]; rfl
    exact ⟨hs.1, ((census_ok_iff verify l pa pb pc pi now bump).mp
      hb).2.2.2.2.2, hs.2.2.2.2.2.2.2.2.2.2.2.1⟩
  · intro l2 ev h
    have hs := att_ok_shape l p v vs ts mr nh en sh sg nowA bumpA l2 ev h
    have hb : exceptOk (submit_attestation_ix l p v vs ts mr nh en sh sg
        nowA bumpA) = true := by rw [h]; rfl
    exact ⟨hs.1, ((att_ok_iff l p v vs ts mr nh en sh sg nowA bumpA).mp
      hb).2.2.2.2.2.2.2, hs.2.2.2.2.2.2.2.2.2.2.2.1⟩
  · intro hmax
    constructor
    · cases hb : exceptOk (submit_census_ix verify l pa pb pc pi now bump) with
      | false => rfl
      | true =>
        exfalso
        have hlt := ((census_ok_iff verify l pa pb pc pi now bump).mp
          hb).2.2.2.2.2
        rw [hmax] at hlt
        simp only [U64MOD] at hlt
        omega
    · cases hb : exceptOk (submit_attestation_ix l p v vs ts mr nh en sh sg
        nowA bumpA) with
      | false => rfl
      | true =>
        exfalso
        have hlt := ((att_ok_iff l p v vs ts mr nh en sh sg nowA bumpA).mp
          hb).2.2.2.2.2.2.2
        rw [hmax] at hlt
        simp only [U64MOD] at hlt
        omega
  · intro hvs h1 h2 h3 h4 h5 h6 h7
    subst hvs
    refine att_overflow_err l p v ts mr nh en sh sg nowA bumpA h1 h2
      ⟨h3, h4⟩ h5 h6 ?_
    rw [h7]
    simp only [U64MOD]
    omega
  · exact fun hb => step_of_not_ok hb
  · exact fun hb => step_of_not_ok hb

/-- Witness for C7: the sample attestation on the fresh ledger increments
the population from 0 to 1 and pushes exactly one nullifier record; on a
ledger whose population counter is at the u64 maximum, both submission paths
fail. -/
theorem exactly_once_increment_witness :
    (L1att.census.current_population = L1.census.current_population + 1 ∧
     L1.census.current_population + 1 < U64MOD ∧
     L1att.nullifiers =
       { nullifier_hash := nhA, scope := L1.census.current_scope,
         timestamp := 0, bump := 255 } :: L1.nullifiers) ∧
    (exceptOk (submit_census_ix vTrue LMax sigZ sigZ sigZ piOK 0 255) =
       false ∧
     exceptOk (submit_attestation_ix LMax 8 9 true 0 zeros32 nhA enOK shA
       sigZ 0 255) = false) := by
  have h1 := exactly_once_increment vTrue L1 sigZ sigZ sigZ piOK 0 255 8 9
    true 0 zeros32 nhA enOK shA sigZ 0 255
  have h2 := exactly_once_increment vTrue LMax sigZ sigZ sigZ piOK 0 255 8 9
    true 0 zeros32 nhA enOK shA sigZ 0 255
  exact ⟨h1.2.1 L1att evAtt rfl, h2.2.2.1 rfl⟩


/-- C8: enrollment recording.  A successful register_citizen increments the
leaf count and the total-registered count each by exactly 1, emits the
enrollment event carrying the commitment and the pre-increment leaf index,
and does not modify the stored root; consequently the two counters stay
equal under every operation once equal, and both are monotone
non-decreasing under every operation. -/
theorem enrollment_spec (verify : VerifyFn) (caller : Pubkey) (l : Ledger)
    (ic : Bytes) (now : Int) (op : Op) :
    (∀ l2 ev, register_citizen_ix caller l ic now = .ok (l2, ev) →
       l2.census.leaf_count = l.census.leaf_count + 1 ∧
       l2.census.total_registered = l.census.total_registered + 1 ∧
       ev = [Event.citizenRegistered ic l.census.leaf_count now] ∧
       l2.census.merkle_root = l.census.merkle_root) ∧
    (l.census.total_registered = l.census.leaf_count →
       (step verify l op).census.total_registered =
         (step verify l op).census.leaf_count) ∧
    l.census.total_registered ≤ (step verify l op).census.total_registered ∧
    l.census.leaf_count ≤ (step verify l op).census.leaf_count := by
  refine ⟨?_, ?_, ?_, ?_⟩
  · intro l2 ev h
    have hs := register_ok_shape caller l ic now l2 ev h
    exact ⟨hs.1, hs.2.1, hs.2.2.2.2.2.2.2.2.2.2.2.2, hs.2.2.2.1⟩
  · intro heq
    rcases step_total_leaf verify l op with ⟨h1, h2⟩ | ⟨h1, h2⟩ <;> omega
  · rcases step_total_leaf verify l op with ⟨h1, h2⟩ | ⟨h1, h2⟩ <;> omega
  · rcases step_total_leaf verify l op with ⟨h1, h2⟩ | ⟨h1, h2⟩ <;> omega

/-- Witness for C8: registering a citizen on the fresh ledger yields exactly
the expected counters, event and unchanged root, and the counters stay
equal after the step. -/
theorem enrollment_spec_witness :
    (L1reg.census.leaf_count = L1.census.leaf_count + 1 ∧
     L1reg.census.total_registered = L1.census.total_registered + 1 ∧
     evReg = [Event.citizenRegistered icA L1.census.leaf_count 5] ∧
     L1reg.census.merkle_root = L1.census.merkle_root) ∧
    (step vTrue L1 (.register 7 icA 5)).census.total_registered =
      (step vTrue L1 (.register 7 icA 5)).census.leaf_count := by
  have h := enrollment_spec vTrue 7 L1 icA 5 (.register 7 icA 5)
  exact ⟨h.1 L1reg evReg rfl, h.2.1 rfl⟩

end ZkCensus
